import Mathlib

/-!
A verification development for the Taurus configuration-binding library
(`taurus.go`).  The source file contains two variants of the library: an
instance-based variant (`Taurus` struct with methods, "V1" below) and an
older package-level variant ("V2" below).  Both are embedded here.

Modelling conventions:
* Go types are represented by `GoType` (a type-identity name used for the
  registry maps keyed by `reflect.Type`, plus a `GoKind` driving the
  `reflect.Kind` switches).  Go values are `GoValue`.
* The process environment is an association list `EnvMap`; `os.LookupEnv`
  is association lookup.
* `encoding.TextUnmarshaler` implementations are a parameter
  `te : TextEnv` mapping type names to decoders, since any Go type may
  carry that method.
* Machine integers are `Int`/`Nat`; `reflect.Value.SetInt`/`SetUint`
  narrow by two's-complement wrap-around (`truncInt`/`truncUint`).
* Errors are the strings the Go code builds with `fmt.Errorf`; a reflect
  panic is a distinct outcome (`Res.panicked`).  In-place mutation of the
  record is modelled by returning the record value; the `Taurus` registry
  state is threaded through and returned so that frame properties are
  expressible.
-/

/-- Bit widths of Go's signed/unsigned integer kinds.  The platform-sized
`int`/`uint` are 64-bit on the targets considered. -/
inductive IntW : Type where
  | w8 | w16 | w32 | w64
deriving DecidableEq, Repr

def IntW.bits : IntW → Nat
  | .w8 => 8
  | .w16 => 16
  | .w32 => 32
  | .w64 => 64

mutual
/-- A Go static type: an identity name (standing for `reflect.Type`, the
key of the custom-unmarshaler registry and of `TextEnv`) and its kind. -/
inductive GoType : Type where
  | mk (name : String) (kind : GoKind)

/-- The `reflect.Kind`-level shape of a Go type, restricted to the kinds
`setField` and the walkers distinguish.  `kother` carries the
`reflect.Kind` name printed by the unsupported-type error (e.g. "func"). -/
inductive GoKind : Type where
  | kstring
  | kint (w : IntW)
  | kuint (w : IntW)
  | kfloat32
  | kfloat64
  | kbool
  | kstruct (fields : List GoField)
  | kother (kindName : String)

/-- A struct field: Go name, `yaml` tag (empty when absent), whether the
field is exported (equivalently, settable through reflection), and its
static type. -/
inductive GoField : Type where
  | mk (fname : String) (ftag : String) (exported : Bool) (ftyp : GoType)
end

def GoType.name : GoType → String
  | .mk n _ => n

def GoType.kind : GoType → GoKind
  | .mk _ k => k

def GoField.fname : GoField → String
  | .mk n _ _ _ => n

def GoField.ftag : GoField → String
  | .mk _ t _ _ => t

def GoField.exported : GoField → Bool
  | .mk _ _ e _ => e

def GoField.ftyp : GoField → GoType
  | .mk _ _ _ t => t

def GoKind.isStructKind : GoKind → Bool
  | .kstruct _ => true
  | _ => false

/-- A Go value.  Struct values list their field values in declaration
order.  Float values record the accepted literal verbatim: IEEE-754
value semantics is outside the scope of this embedding and no claim
compares floating-point values.  `vother` stands for values of kinds the
converter does not support (func, chan, ...). -/
inductive GoValue : Type where
  | vstring (s : String)
  | vint (n : Int)
  | vuint (n : Nat)
  | vfloat (lit : String)
  | vbool (b : Bool)
  | vstruct (elems : List GoValue)
  | vother
deriving Repr

/-! ## strconv models -/

def natOfDigits (cs : List Char) : Nat :=
  cs.foldl (fun a c => 10 * a + (c.toNat - 48)) 0

/-- The message of a `strconv.NumError` with `ErrSyntax` (quoting of
non-printable characters is elided; inputs in this development are
printable ASCII). -/
def synErr (fn s : String) : String :=
  "strconv." ++ fn ++ ": parsing \"" ++ s ++ "\": invalid syntax"

/-- The message of a `strconv.NumError` with `ErrRange`. -/
def rngErr (fn s : String) : String :=
  "strconv." ++ fn ++ ": parsing \"" ++ s ++ "\": value out of range"

/-- Model of `strconv.ParseUint(s, 10, 64)`: no sign permitted, decimal
digits only, value below `2^64`. -/
def parseUint64 (s : String) : Except String Nat :=
  if s = "" then .error (synErr "ParseUint" s)
  else if s.data.all Char.isDigit then
    let n := natOfDigits s.data
    if n < 2 ^ 64 then .ok n else .error (rngErr "ParseUint" s)
  else .error (synErr "ParseUint" s)

/-- Model of `strconv.ParseInt(s, 10, 64)`: one optional leading `+`/`-`,
then decimal digits, range-checked against int64. -/
def parseInt64 (s : String) : Except String Int :=
  if s = "" then .error (synErr "ParseInt" s)
  else
    let signDigits : Bool × List Char :=
      match s.data with
      | '+' :: rest => (false, rest)
      | '-' :: rest => (true, rest)
      | cs => (false, cs)
    let neg := signDigits.1
    let digits := signDigits.2
    if digits.isEmpty || !digits.all Char.isDigit then .error (synErr "ParseInt" s)
    else
      let n := natOfDigits digits
      if neg then
        if n ≤ 2 ^ 63 then .ok (-(n : Int)) else .error (rngErr "ParseInt" s)
      else
        if n < 2 ^ 63 then .ok (n : Int) else .error (rngErr "ParseInt" s)

/-- Model of `strconv.ParseBool`. -/
def parseBool (s : String) : Except String Bool :=
  if s = "1" ∨ s = "t" ∨ s = "T" ∨ s = "true" ∨ s = "TRUE" ∨ s = "True" then .ok true
  else if s = "0" ∨ s = "f" ∨ s = "F" ∨ s = "false" ∨ s = "FALSE" ∨ s = "False" then .ok false
  else .error (synErr "ParseBool" s)

def isExpChar (c : Char) : Bool := c == 'e' || c == 'E'

def stripSign : List Char → List Char
  | '+' :: rest => rest
  | '-' :: rest => rest
  | cs => cs

def validDigits (cs : List Char) : Bool :=
  !cs.isEmpty && cs.all Char.isDigit

/-- A decimal mantissa: digits with at most one dot and at least one
digit overall. -/
def validMant (cs : List Char) : Bool :=
  match cs.splitOn '.' with
  | [d] => validDigits d
  | [d1, d2] => d1.all Char.isDigit && d2.all Char.isDigit && !(d1 ++ d2).isEmpty
  | _ => false

def lowerStr (cs : List Char) : List Char := cs.map Char.toLower

/-- Syntactic validity of a decimal floating-point literal for
`strconv.ParseFloat`: optional sign, decimal mantissa, optional decimal
exponent; or the special values `inf`/`infinity` (optionally signed) and
`nan`, case-insensitively.  Hexadecimal floats and digit-separating
underscores are outside the model; no claim exercises them. -/
def validFloatLit (s : String) : Bool :=
  let cs := stripSign s.data
  (lowerStr cs = "inf".data || lowerStr cs = "infinity".data
    || lowerStr s.data = "nan".data)
  || (let mant := cs.takeWhile (fun c => !isExpChar c)
      let rest := cs.dropWhile (fun c => !isExpChar c)
      validMant mant &&
        (match rest with
         | [] => true
         | _ :: expPart => validDigits (stripSign expPart)))

/-- Model of `strconv.ParseFloat(s, 64)` at the level this development
needs: acceptance or a syntax error.  The accepted literal is kept
verbatim as the "value" (see `GoValue.vfloat`). -/
def parseFloat (s : String) : Except String String :=
  if validFloatLit s then .ok s else .error (synErr "ParseFloat" s)

/-- Two's-complement narrowing of an `int64` value to width `w`, the
effect of `reflect.Value.SetInt` on a narrower field. -/
def truncInt (w : IntW) (n : Int) : Int :=
  (n + 2 ^ (w.bits - 1)) % (2 ^ w.bits : Int) - 2 ^ (w.bits - 1)

/-- Wrap-around narrowing of a `uint64` value to width `w`, the effect of
`reflect.Value.SetUint` on a narrower field. -/
def truncUint (w : IntW) (n : Nat) : Nat := n % 2 ^ w.bits

/-! ## Registry state and external collaborators -/

/-- A `pflag.Flag` handle as the flag binder reads it: the `Changed` bit
and the string rendering `Value.String()` of its current value. -/
structure PFlag : Type where
  changed : Bool
  value : String
deriving DecidableEq, Repr

/-- A text decoder: receives the field's current value (the Go function
receives the field's address) and the raw text, and produces the new
field value or an error. -/
abbrev TextDec := GoValue → String → Except String GoValue

/-- Implementations of `encoding.TextUnmarshaler` present in the ambient
Go program, keyed by type name.  This is a parameter of the embedding,
not part of the Taurus registry. -/
abbrev TextEnv := String → Option TextDec

/-- The process environment, an association list keyed by variable name. -/
abbrev EnvMap := List (String × String)

/-- First-match association lookup (Go map indexing / `os.LookupEnv`). -/
def assocFind {α : Type} : List (String × α) → String → Option α
  | [], _ => none
  | (k', v) :: rest, k => if k' = k then some v else assocFind rest k

/-- Overwrite-semantics association update (Go map assignment). -/
def assocSet {α : Type} : List (String × α) → String → α → List (String × α)
  | [], k, v => [(k, v)]
  | (k', v') :: rest, k, v =>
      if k' = k then (k', v) :: rest else (k', v') :: assocSet rest k v

/-- Append-semantics update used by `BindEnvAlias`
(`m[k] = append(m[k], vs...)`; a missing key reads as `nil`). -/
def assocAppend : List (String × List String) → String → List String →
    List (String × List String)
  | [], k, vs => [(k, vs)]
  | (k', vs') :: rest, k, vs =>
      if k' = k then (k', vs' ++ vs) :: rest else (k', vs') :: assocAppend rest k vs

/-- The `Taurus` registry/settings record (the fields of the `Taurus`
struct in the instance variant; the package-level variant's globals have
the same shape). -/
structure Taurus : Type where
  envPrefix : String := ""
  expandEnv : Bool := false
  envAliases : List (String × List String) := []
  flags : List (String × PFlag) := []
  customMarshalers : List (String × (GoValue → Except String String)) := []
  customUnmarshalers : List (String × TextDec) := []

/-- `New()`: zero prefix, expansion off, empty tables. -/
def Taurus.new : Taurus := {}

/-- `SetEnvPrefix`. -/
def Taurus.setEnvPrefix (σ : Taurus) (p : String) : Taurus :=
  { σ with envPrefix := p }

/-- `SetExpandEnv`. -/
def Taurus.setExpandEnv (σ : Taurus) (b : Bool) : Taurus :=
  { σ with expandEnv := b }

/-- `BindEnvAlias(fieldPath, aliases...)`:
`t.envAliases[fieldPath] = append(t.envAliases[fieldPath], aliases...)`. -/
def Taurus.bindEnvAlias (σ : Taurus) (fieldPath : String) (aliases : List String) :
    Taurus :=
  { σ with envAliases := assocAppend σ.envAliases fieldPath aliases }

/-- `BindFlag(fieldPath, flag)`. -/
def Taurus.bindFlag (σ : Taurus) (fieldPath : String) (fl : PFlag) : Taurus :=
  { σ with flags := assocSet σ.flags fieldPath fl }

/-- `RegisterUnmarshaler[T]` as it affects the Taurus table (the mirrored
registration into the yaml parser is external). -/
def Taurus.registerUnmarshaler (σ : Taurus) (tyName : String) (u : TextDec) : Taurus :=
  { σ with customUnmarshalers := assocSet σ.customUnmarshalers tyName u }

/-- `strings.TrimPrefix`: drops `pfx` only when it is actually a prefix.
(Go trims bytes; the character-level view coincides on the ASCII keys
used for environment lookup.) -/
def goTrimPrefix (s pfx : String) : String :=
  if pfx.data.isPrefixOf s.data then ⟨s.data.drop pfx.data.length⟩ else s

/-- ASCII uppercase of one character (`strings.ToUpper` acts
per-character; the Unicode cases beyond ASCII are not exercised here). -/
def goCharUpper (c : Char) : Char :=
  if 'a' ≤ c ∧ c ≤ 'z' then Char.ofNat (c.toNat - 32) else c

/-- `strings.ToUpper` (ASCII fragment). -/
def goToUpper (s : String) : String := ⟨s.data.map goCharUpper⟩

/-- Outcome of a binding call: normal return with `nil` error, normal
return with a non-nil error, or a runtime panic raised by the reflect
package. -/
inductive Res : Type where
  | ok
  | err (msg : String)
  | panicked (msg : String)
deriving DecidableEq, Repr

/-- The panic message of `reflect.Value.Interface` on a value reached
through an unexported field (raised by `fieldValue.Addr().Interface()`
when the walkers recurse into an unexported struct-typed field). -/
def roInterfacePanic : String :=
  "reflect.Value.Interface: cannot return value obtained from unexported field or method"

/-! ## The type converter (`setField`) -/

/-- The built-in scalar conversion switch of `setField`
(`switch fieldValue.Kind() { ... }`).  Integer parses use bit size 64 and
the subsequent `SetInt`/`SetUint` narrows by wrap-around; the `default`
arm reports the field's kind. -/
def setFieldKind (f : GoField) (value : String) : Except String GoValue :=
  match f.ftyp.kind with
  | .kstring => .ok (.vstring value)
  | .kint w =>
      match parseInt64 value with
      | .error e => .error ("invalid int: " ++ e)
      | .ok n => .ok (.vint (truncInt w n))
  | .kuint w =>
      match parseUint64 value with
      | .error e => .error ("invalid uint: " ++ e)
      | .ok n => .ok (.vuint (truncUint w n))
  | .kfloat32 =>
      match parseFloat value with
      | .error e => .error ("invalid float: " ++ e)
      | .ok lit => .ok (.vfloat lit)
  | .kfloat64 =>
      match parseFloat value with
      | .error e => .error ("invalid float: " ++ e)
      | .ok lit => .ok (.vfloat lit)
  | .kbool =>
      match parseBool value with
      | .error e => .error ("invalid bool: " ++ e)
      | .ok b => .ok (.vbool b)
  | .kstruct _ => .error "unsupported field type: struct"
  | .kother kindName => .error ("unsupported field type: " ++ kindName)

/-- `setField(field, fieldValue, value)`: a custom unmarshaler registered
for the field's exact static type first, then the type's own
`encoding.TextUnmarshaler` implementation, then the built-in kind switch.
Identical in both source variants (the instance variant reads the
receiver's table, the package variant the global one; the table is the
`σ` argument). -/
def setField (σ : Taurus) (te : TextEnv) (f : GoField) (old : GoValue)
    (value : String) : Except String GoValue :=
  match assocFind σ.customUnmarshalers f.ftyp.name with
  | some customUnmarshaler =>
      match customUnmarshaler old value with
      | .error e => .error ("failed to unmarshal custom field: " ++ e)
      | .ok v => .ok v
  | none =>
      match te f.ftyp.name with
      | some unmarshaler =>
          match unmarshaler old value with
          | .error e => .error ("failed to unmarshal field: " ++ e)
          | .ok v => .ok v
      | none => setFieldKind f value

/-! ## Environment lookup with alias fallback -/

/-- The alias fallback loop of `LoadEnv` (lines 163-169): try each alias
suffix in registration order, re-prefixed with the process-wide env
prefix, and stop at the first hit; returns the key that hit and its
value. -/
def aliasLoop (σ : Taurus) (env : EnvMap) : List String → Option (String × String)
  | [] => none
  | key :: keys =>
      match assocFind env (σ.envPrefix ++ "_" ++ key) with
      | some v => some (σ.envPrefix ++ "_" ++ key, v)
      | none => aliasLoop σ env keys

/-- The environment lookup for one leaf: the primary key directly, else
the aliases registered under the prefix-stripped key.  Returns the key
that hit (used in error messages) and the raw value. -/
def lookupEnvAliased (σ : Taurus) (env : EnvMap) (envKey : String) :
    Option (String × String) :=
  match assocFind env envKey with
  | some v => some (envKey, v)
  | none =>
      aliasLoop σ env
        ((assocFind σ.envAliases (goTrimPrefix envKey (σ.envPrefix ++ "_"))).getD [])

/-- The environment key the instance variant computes for a field:
`ToUpper(tag)` joined to the prefix with `_` only when the prefix is
nonempty (lines 145-148). -/
def envKeyV1 (pfx : String) (f : GoField) : String :=
  let tag := if f.ftag = "" then f.fname else f.ftag
  if pfx = "" then goToUpper tag else pfx ++ "_" ++ goToUpper tag

/-- The environment key the package-level variant computes:
`prefix + "_" + ToUpper(tag)` unconditionally (line 375). -/
def envKeyV2 (pfx : String) (f : GoField) : String :=
  let tag := if f.ftag = "" then f.fname else f.ftag
  pfx ++ "_" ++ goToUpper tag

/-- The flag path of a field: the name, dot-joined to the prefix when the
prefix is nonempty (identical in both variants). -/
def fieldPathGo (pfx : String) (f : GoField) : String :=
  if pfx = "" then f.fname else pfx ++ "." ++ f.fname

/-! ## The env binder, instance variant (lines 127-180)

`Taurus.LoadEnv` checks that the target is a pointer to a struct, then
walks the fields.  The nested-struct recursion at line 151 goes through
the package-level `LoadEnv`, i.e. through the package's default
instance; the embedding models the configuration in which the receiver
is that default instance (the ordinary way the package is used, and the
path taken by the package-level API of lines 123-125), so the recursion
carries the same registry state `σ`.  A struct-typed field is recursed
into before the `CanSet` check; for an unexported one,
`fieldValue.Addr().Interface()` panics. -/

mutual
def loadEnvV1 (te : TextEnv) (env : EnvMap) (σ : Taurus) (pfx : String)
    (typ : GoType) (val : GoValue) : Taurus × GoValue × Res :=
  match typ, val with
  | .mk _ (.kstruct fields), .vstruct vals =>
      let r := loadEnvV1Loop te env σ pfx fields vals
      (r.1, .vstruct r.2.1, r.2.2)
  | _, v => (σ, v, .err "cfg must be a pointer to a struct")
termination_by structural typ

/-- One iteration of the field loop (lines 136-178).  `inl` means the
iteration fell through or hit a `continue`: the loop proceeds with the
(possibly updated) field value and state.  `inr` means the iteration
returned out of `LoadEnv` (error from the nested call or from
`setField`) or panicked; the remaining fields are not visited. -/
def loadEnvV1Step (te : TextEnv) (env : EnvMap) (σ : Taurus) (pfx : String)
    (fld : GoField) (v : GoValue) : (Taurus × GoValue) ⊕ (Taurus × GoValue × Res) :=
  match fld with
  | .mk fname ftag fexported ftyp =>
    if ftyp.kind.isStructKind then
      if fexported then
        match loadEnvV1 te env σ (envKeyV1 pfx (.mk fname ftag fexported ftyp)) ftyp v with
        | (σ', v', .ok) => .inl (σ', v')
        | (σ', v', r) => .inr (σ', v', r)
      else .inr (σ, v, .panicked roInterfacePanic)
    else if !fexported then .inl (σ, v)
    else
      match lookupEnvAliased σ env (envKeyV1 pfx (.mk fname ftag fexported ftyp)) with
      | none => .inl (σ, v)
      | some (hitKey, envVal) =>
          match setField σ te (.mk fname ftag fexported ftyp) v envVal with
          | .error e =>
              .inr (σ, v, .err ("error setting field for " ++ hitKey ++ ": " ++ e))
          | .ok v' => .inl (σ, v')
termination_by structural fld

def loadEnvV1Loop (te : TextEnv) (env : EnvMap) (σ : Taurus) (pfx : String)
    (flds : List GoField) (vals : List GoValue) : Taurus × List GoValue × Res :=
  match flds, vals with
  | [], vs => (σ, vs, .ok)
  | _ :: _, [] => (σ, [], .ok)
  | f :: fs, v :: vs =>
      match loadEnvV1Step te env σ pfx f v with
      | .inl (σ', v') =>
          let r := loadEnvV1Loop te env σ' pfx fs vs
          (r.1, v' :: r.2.1, r.2.2)
      | .inr (σ', v', res) => (σ', v' :: vs, res)
termination_by structural flds
end

/-! ## The env binder, package-level variant (lines 357-407)

Identical except for the unconditional `prefix + "_" + ToUpper(tag)`
key join; the recursion calls the package-level `LoadEnv` and all
registry reads are from the package globals (`σ`). -/

mutual
def loadEnvV2 (te : TextEnv) (env : EnvMap) (σ : Taurus) (pfx : String)
    (typ : GoType) (val : GoValue) : Taurus × GoValue × Res :=
  match typ, val with
  | .mk _ (.kstruct fields), .vstruct vals =>
      let r := loadEnvV2Loop te env σ pfx fields vals
      (r.1, .vstruct r.2.1, r.2.2)
  | _, v => (σ, v, .err "cfg must be a pointer to a struct")
termination_by structural typ

def loadEnvV2Step (te : TextEnv) (env : EnvMap) (σ : Taurus) (pfx : String)
    (fld : GoField) (v : GoValue) : (Taurus × GoValue) ⊕ (Taurus × GoValue × Res) :=
  match fld with
  | .mk fname ftag fexported ftyp =>
    if ftyp.kind.isStructKind then
      if fexported then
        match loadEnvV2 te env σ (envKeyV2 pfx (.mk fname ftag fexported ftyp)) ftyp v with
        | (σ', v', .ok) => .inl (σ', v')
        | (σ', v', r) => .inr (σ', v', r)
      else .inr (σ, v, .panicked roInterfacePanic)
    else if !fexported then .inl (σ, v)
    else
      match lookupEnvAliased σ env (envKeyV2 pfx (.mk fname ftag fexported ftyp)) with
      | none => .inl (σ, v)
      | some (hitKey, envVal) =>
          match setField σ te (.mk fname ftag fexported ftyp) v envVal with
          | .error e =>
              .inr (σ, v, .err ("error setting field for " ++ hitKey ++ ": " ++ e))
          | .ok v' => .inl (σ, v')
termination_by structural fld

def loadEnvV2Loop (te : TextEnv) (env : EnvMap) (σ : Taurus) (pfx : String)
    (flds : List GoField) (vals : List GoValue) : Taurus × List GoValue × Res :=
  match flds, vals with
  | [], vs => (σ, vs, .ok)
  | _ :: _, [] => (σ, [], .ok)
  | f :: fs, v :: vs =>
      match loadEnvV2Step te env σ pfx f v with
      | .inl (σ', v') =>
          let r := loadEnvV2Loop te env σ' pfx fs vs
          (r.1, v' :: r.2.1, r.2.2)
      | .inr (σ', v', res) => (σ', v' :: vs, res)
termination_by structural flds
end

/-! ## The flag binder (lines 190-229 and 409-448)

The loop bodies of `Taurus.loadFlags` and the package-level `LoadFlags`
are textually identical (the instance variant recurses through the
receiver's own `t.loadFlags`), so one definition serves both; only the
entry points differ: `Taurus.LoadFlags(cfg)` fixes the prefix to `""`,
the package-level `LoadFlags(prefix, cfg)` takes it as an argument. -/

mutual
def loadFlagsGo (te : TextEnv) (σ : Taurus) (pfx : String)
    (typ : GoType) (val : GoValue) : Taurus × GoValue × Res :=
  match typ, val with
  | .mk _ (.kstruct fields), .vstruct vals =>
      let r := loadFlagsLoop te σ pfx fields vals
      (r.1, .vstruct r.2.1, r.2.2)
  | _, v => (σ, v, .err "cfg must be a pointer to a struct")
termination_by structural typ

/-- One iteration of the flag-binding loop (lines 199-227): no registered
flag, or a registered flag whose `Changed` bit is false, means
`continue` with the field untouched. -/
def loadFlagsStep (te : TextEnv) (σ : Taurus) (pfx : String)
    (fld : GoField) (v : GoValue) : (Taurus × GoValue) ⊕ (Taurus × GoValue × Res) :=
  match fld with
  | .mk fname ftag fexported ftyp =>
    if ftyp.kind.isStructKind then
      if fexported then
        match loadFlagsGo te σ (fieldPathGo pfx (.mk fname ftag fexported ftyp)) ftyp v with
        | (σ', v', .ok) => .inl (σ', v')
        | (σ', v', r) => .inr (σ', v', r)
      else .inr (σ, v, .panicked roInterfacePanic)
    else if !fexported then .inl (σ, v)
    else
      match assocFind σ.flags (fieldPathGo pfx (.mk fname ftag fexported ftyp)) with
      | none => .inl (σ, v)
      | some fl =>
          if !fl.changed then .inl (σ, v)
          else
            match setField σ te (.mk fname ftag fexported ftyp) v fl.value with
            | .error e =>
                .inr (σ, v,
                  .err ("error setting field for "
                    ++ fieldPathGo pfx (.mk fname ftag fexported ftyp) ++ ": " ++ e))
            | .ok v' => .inl (σ, v')
termination_by structural fld

def loadFlagsLoop (te : TextEnv) (σ : Taurus) (pfx : String)
    (flds : List GoField) (vals : List GoValue) : Taurus × List GoValue × Res :=
  match flds, vals with
  | [], vs => (σ, vs, .ok)
  | _ :: _, [] => (σ, [], .ok)
  | f :: fs, v :: vs =>
      match loadFlagsStep te σ pfx f v with
      | .inl (σ', v') =>
          let r := loadFlagsLoop te σ' pfx fs vs
          (r.1, v' :: r.2.1, r.2.2)
      | .inr (σ', v', res) => (σ', v' :: vs, res)
termination_by structural flds
end

/-- `Taurus.LoadFlags(cfg)` / package-level `LoadFlags(cfg)` of the
instance variant: the walk starts with an empty path prefix. -/
def loadFlagsV1 (te : TextEnv) (σ : Taurus) (typ : GoType) (val : GoValue) :
    Taurus × GoValue × Res :=
  loadFlagsGo te σ "" typ val

/-- `Load(configData, cfg)`: optionally expand `$VAR` references, then
delegate to the external yaml parser.  The parser and `os.ExpandEnv` are
external collaborators, passed as parameters; the two source variants'
bodies are textually identical, so one definition serves both. -/
def loadGo (yamlUnmarshal : String → GoValue → GoValue × Option String)
    (expandFn : String → String) (σ : Taurus) (configData : String)
    (cfg : GoValue) : Taurus × GoValue × Res :=
  let data := if σ.expandEnv then expandFn configData else configData
  match yamlUnmarshal data cfg with
  | (v, some e) => (σ, v, .err ("failed to unmarshal config data: " ++ e))
  | (v, none) => (σ, v, .ok)

/-! ## Structural lemmas about the walkers -/

/-- The registry state carried by a step outcome. -/
def stepState : (Taurus × GoValue) ⊕ (Taurus × GoValue × Res) → Taurus
  | .inl (σ', _) => σ'
  | .inr (σ', _, _) => σ'

theorem loadEnvV1_state (te : TextEnv) (env : EnvMap) (σ : Taurus) (pfx : String)
    (typ : GoType) (val : GoValue) : (loadEnvV1 te env σ pfx typ val).1 = σ := by
  refine loadEnvV1.induct te env
    (fun σ pfx typ val => (loadEnvV1 te env σ pfx typ val).1 = σ)
    (fun σ pfx fs vs => (loadEnvV1Loop te env σ pfx fs vs).1 = σ)
    (fun σ pfx f v => stepState (loadEnvV1Step te env σ pfx f v) = σ)
    ?_ ?_ ?_ ?_ ?_ ?_ ?_ ?_ ?_ ?_ ?_ ?_ ?_ σ pfx typ val
  all_goals intros
  all_goals simp_all [loadEnvV1, loadEnvV1Loop, loadEnvV1Step, stepState]

theorem loadEnvV1Loop_state (te : TextEnv) (env : EnvMap) (σ : Taurus) (pfx : String)
    (fs : List GoField) (vs : List GoValue) :
    (loadEnvV1Loop te env σ pfx fs vs).1 = σ := by
  refine loadEnvV1Loop.induct te env
    (fun σ pfx typ val => (loadEnvV1 te env σ pfx typ val).1 = σ)
    (fun σ pfx fs vs => (loadEnvV1Loop te env σ pfx fs vs).1 = σ)
    (fun σ pfx f v => stepState (loadEnvV1Step te env σ pfx f v) = σ)
    ?_ ?_ ?_ ?_ ?_ ?_ ?_ ?_ ?_ ?_ ?_ ?_ ?_ σ pfx fs vs
  all_goals intros
  all_goals simp_all [loadEnvV1, loadEnvV1Loop, loadEnvV1Step, stepState]

theorem loadEnvV1Step_state (te : TextEnv) (env : EnvMap) (σ : Taurus) (pfx : String)
    (f : GoField) (v : GoValue) :
    stepState (loadEnvV1Step te env σ pfx f v) = σ := by
  refine loadEnvV1Step.induct te env
    (fun σ pfx typ val => (loadEnvV1 te env σ pfx typ val).1 = σ)
    (fun σ pfx fs vs => (loadEnvV1Loop te env σ pfx fs vs).1 = σ)
    (fun σ pfx f v => stepState (loadEnvV1Step te env σ pfx f v) = σ)
    ?_ ?_ ?_ ?_ ?_ ?_ ?_ ?_ ?_ ?_ ?_ ?_ ?_ σ pfx f v
  all_goals intros
  all_goals simp_all [loadEnvV1, loadEnvV1Loop, loadEnvV1Step, stepState]

/-- A step never exits the loop with the `ok` result: an early exit is an
error or a panic. -/
theorem loadEnvV1Step_inr_ne_ok (te : TextEnv) (env : EnvMap) (σ σ' : Taurus)
    (pfx : String) (f : GoField) (v v' : GoValue) (res : Res)
    (h : loadEnvV1Step te env σ pfx f v = .inr (σ', v', res)) : res ≠ .ok := by
  cases f with
  | mk fname ftag fexported ftyp =>
    unfold loadEnvV1Step at h
    repeat' split at h
    all_goals simp_all
    all_goals rintro rfl
    all_goals simp_all

/-! ## Structural lemmas, package-level env binder and flag binder -/

theorem loadEnvV2_state (te : TextEnv) (env : EnvMap) (σ : Taurus) (pfx : String)
    (typ : GoType) (val : GoValue) : (loadEnvV2 te env σ pfx typ val).1 = σ := by
  refine loadEnvV2.induct te env
    (fun σ pfx typ val => (loadEnvV2 te env σ pfx typ val).1 = σ)
    (fun σ pfx fs vs => (loadEnvV2Loop te env σ pfx fs vs).1 = σ)
    (fun σ pfx f v => stepState (loadEnvV2Step te env σ pfx f v) = σ)
    ?_ ?_ ?_ ?_ ?_ ?_ ?_ ?_ ?_ ?_ ?_ ?_ ?_ σ pfx typ val
  all_goals intros
  all_goals simp_all [loadEnvV2, loadEnvV2Loop, loadEnvV2Step, stepState]

theorem loadEnvV2Loop_state (te : TextEnv) (env : EnvMap) (σ : Taurus) (pfx : String)
    (fs : List GoField) (vs : List GoValue) :
    (loadEnvV2Loop te env σ pfx fs vs).1 = σ := by
  refine loadEnvV2Loop.induct te env
    (fun σ pfx typ val => (loadEnvV2 te env σ pfx typ val).1 = σ)
    (fun σ pfx fs vs => (loadEnvV2Loop te env σ pfx fs vs).1 = σ)
    (fun σ pfx f v => stepState (loadEnvV2Step te env σ pfx f v) = σ)
    ?_ ?_ ?_ ?_ ?_ ?_ ?_ ?_ ?_ ?_ ?_ ?_ ?_ σ pfx fs vs
  all_goals intros
  all_goals simp_all [loadEnvV2, loadEnvV2Loop, loadEnvV2Step, stepState]

theorem loadEnvV2Step_state (te : TextEnv) (env : EnvMap) (σ : Taurus) (pfx : String)
    (f : GoField) (v : GoValue) :
    stepState (loadEnvV2Step te env σ pfx f v) = σ := by
  refine loadEnvV2Step.induct te env
    (fun σ pfx typ val => (loadEnvV2 te env σ pfx typ val).1 = σ)
    (fun σ pfx fs vs => (loadEnvV2Loop te env σ pfx fs vs).1 = σ)
    (fun σ pfx f v => stepState (loadEnvV2Step te env σ pfx f v) = σ)
    ?_ ?_ ?_ ?_ ?_ ?_ ?_ ?_ ?_ ?_ ?_ ?_ ?_ σ pfx f v
  all_goals intros
  all_goals simp_all [loadEnvV2, loadEnvV2Loop, loadEnvV2Step, stepState]

/-- A step never exits the loop with the `ok` result: an early exit is an
error or a panic. -/
theorem loadEnvV2Step_inr_ne_ok (te : TextEnv) (env : EnvMap) (σ σ' : Taurus)
    (pfx : String) (f : GoField) (v v' : GoValue) (res : Res)
    (h : loadEnvV2Step te env σ pfx f v = .inr (σ', v', res)) : res ≠ .ok := by
  cases f with
  | mk fname ftag fexported ftyp =>
    unfold loadEnvV2Step at h
    repeat' split at h
    all_goals simp_all
    all_goals rintro rfl
    all_goals simp_all

theorem loadFlagsGo_state (te : TextEnv) (σ : Taurus) (pfx : String)
    (typ : GoType) (val : GoValue) : (loadFlagsGo te σ pfx typ val).1 = σ := by
  refine loadFlagsGo.induct te
    (fun σ pfx typ val => (loadFlagsGo te σ pfx typ val).1 = σ)
    (fun σ pfx fs vs => (loadFlagsLoop te σ pfx fs vs).1 = σ)
    (fun σ pfx f v => stepState (loadFlagsStep te σ pfx f v) = σ)
    ?_ ?_ ?_ ?_ ?_ ?_ ?_ ?_ ?_ ?_ ?_ ?_ ?_ ?_ σ pfx typ val
  all_goals intros
  all_goals simp_all [loadFlagsGo, loadFlagsLoop, loadFlagsStep, stepState]

theorem loadFlagsLoop_state (te : TextEnv) (σ : Taurus) (pfx : String)
    (fs : List GoField) (vs : List GoValue) :
    (loadFlagsLoop te σ pfx fs vs).1 = σ := by
  refine loadFlagsLoop.induct te
    (fun σ pfx typ val => (loadFlagsGo te σ pfx typ val).1 = σ)
    (fun σ pfx fs vs => (loadFlagsLoop te σ pfx fs vs).1 = σ)
    (fun σ pfx f v => stepState (loadFlagsStep te σ pfx f v) = σ)
    ?_ ?_ ?_ ?_ ?_ ?_ ?_ ?_ ?_ ?_ ?_ ?_ ?_ ?_ σ pfx fs vs
  all_goals intros
  all_goals simp_all [loadFlagsGo, loadFlagsLoop, loadFlagsStep, stepState]

theorem loadFlagsStep_state (te : TextEnv) (σ : Taurus) (pfx : String)
    (f : GoField) (v : GoValue) :
    stepState (loadFlagsStep te σ pfx f v) = σ := by
  refine loadFlagsStep.induct te
    (fun σ pfx typ val => (loadFlagsGo te σ pfx typ val).1 = σ)
    (fun σ pfx fs vs => (loadFlagsLoop te σ pfx fs vs).1 = σ)
    (fun σ pfx f v => stepState (loadFlagsStep te σ pfx f v) = σ)
    ?_ ?_ ?_ ?_ ?_ ?_ ?_ ?_ ?_ ?_ ?_ ?_ ?_ ?_ σ pfx f v
  all_goals intros
  all_goals simp_all [loadFlagsGo, loadFlagsLoop, loadFlagsStep, stepState]

/-- A step never exits the loop with the `ok` result: an early exit is an
error or a panic. -/
theorem loadFlagsStep_inr_ne_ok (te : TextEnv) (σ σ' : Taurus)
    (pfx : String) (f : GoField) (v v' : GoValue) (res : Res)
    (h : loadFlagsStep te σ pfx f v = .inr (σ', v', res)) : res ≠ .ok := by
  cases f with
  | mk fname ftag fexported ftyp =>
    unfold loadFlagsStep at h
    repeat' split at h
    all_goals simp_all
    all_goals rintro rfl
    all_goals simp_all

theorem loadEnvV1Loop_length (te : TextEnv) (env : EnvMap) (σ : Taurus) (pfx : String) (fs : List GoField) (vs : List GoValue) :
    (loadEnvV1Loop te env σ pfx fs vs).2.1.length = vs.length := by
  induction fs generalizing σ vs with
  | nil => simp [loadEnvV1Loop]
  | cons f fs ih =>
    cases vs with
    | nil => simp [loadEnvV1Loop]
    | cons v vs =>
      rw [loadEnvV1Loop]
      rcases h : loadEnvV1Step te env σ pfx f v with ⟨σ', v'⟩ | ⟨σ', v', res⟩
      · simp [ih]
      · simp

theorem loadEnvV1Loop_append (te : TextEnv) (env : EnvMap) (σ : Taurus) (pfx : String) (fs1 fs2 : List GoField) (vs1 vs2 : List GoValue)
    (h : vs1.length = fs1.length) :
    loadEnvV1Loop te env σ pfx (fs1 ++ fs2) (vs1 ++ vs2) =
      match loadEnvV1Loop te env σ pfx fs1 vs1 with
      | (_, out1, .ok) =>
          match loadEnvV1Loop te env σ pfx fs2 vs2 with
          | (_, out2, r2) => (σ, out1 ++ out2, r2)
      | (_, out1, r1) => (σ, out1 ++ vs2, r1) := by
  induction fs1 generalizing vs1 with
  | nil =>
    rw [List.length_nil] at h
    rw [List.length_eq_zero] at h
    subst h
    rcases h2 : loadEnvV1Loop te env σ pfx fs2 vs2 with ⟨σ2, out2, r2⟩
    have hs2 : σ2 = σ := by
      have hst := loadEnvV1Loop_state te env σ pfx fs2 vs2
      rw [h2] at hst; exact hst
    subst hs2
    simp [loadEnvV1Loop, h2]
  | cons f fs1 ih =>
    cases vs1 with
    | nil => simp at h
    | cons v vs1 =>
      simp only [List.length_cons, Nat.add_right_cancel_iff] at h
      simp only [List.cons_append]
      rw [loadEnvV1Loop]
      conv_rhs => rw [loadEnvV1Loop]
      rcases hstep : loadEnvV1Step te env σ pfx f v with ⟨σ', v'⟩ | ⟨σ', v', res⟩
      · have hs : σ' = σ := by
          have hst := loadEnvV1Step_state te env σ pfx f v
          rw [hstep] at hst; exact hst
        subst hs
        dsimp only
        rw [ih vs1 h]
        rcases h1 : loadEnvV1Loop te env σ' pfx fs1 vs1 with ⟨σ1, out1, r1⟩
        have hs1 : σ1 = σ' := by
          have hst := loadEnvV1Loop_state te env σ' pfx fs1 vs1
          rw [h1] at hst; exact hst
        subst hs1
        cases r1 with
        | ok =>
          rcases h2 : loadEnvV1Loop te env σ1 pfx fs2 vs2 with ⟨σ2, out2, r2⟩
          simp
        | err m => simp
        | panicked m => simp
      · have hs : σ' = σ := by
          have hst := loadEnvV1Step_state te env σ pfx f v
          rw [hstep] at hst; exact hst
        subst hs
        dsimp only
        have hne := loadEnvV1Step_inr_ne_ok te env σ' σ' pfx f v v' res hstep
        cases res with
        | ok => exact absurd rfl hne
        | err m => simp
        | panicked m => simp

theorem loadEnvV2Loop_length (te : TextEnv) (env : EnvMap) (σ : Taurus) (pfx : String) (fs : List GoField) (vs : List GoValue) :
    (loadEnvV2Loop te env σ pfx fs vs).2.1.length = vs.length := by
  induction fs generalizing σ vs with
  | nil => simp [loadEnvV2Loop]
  | cons f fs ih =>
    cases vs with
    | nil => simp [loadEnvV2Loop]
    | cons v vs =>
      rw [loadEnvV2Loop]
      rcases h : loadEnvV2Step te env σ pfx f v with ⟨σ', v'⟩ | ⟨σ', v', res⟩
      · simp [ih]
      · simp

theorem loadEnvV2Loop_append (te : TextEnv) (env : EnvMap) (σ : Taurus) (pfx : String) (fs1 fs2 : List GoField) (vs1 vs2 : List GoValue)
    (h : vs1.length = fs1.length) :
    loadEnvV2Loop te env σ pfx (fs1 ++ fs2) (vs1 ++ vs2) =
      match loadEnvV2Loop te env σ pfx fs1 vs1 with
      | (_, out1, .ok) =>
          match loadEnvV2Loop te env σ pfx fs2 vs2 with
          | (_, out2, r2) => (σ, out1 ++ out2, r2)
      | (_, out1, r1) => (σ, out1 ++ vs2, r1) := by
  induction fs1 generalizing vs1 with
  | nil =>
    rw [List.length_nil] at h
    rw [List.length_eq_zero] at h
    subst h
    rcases h2 : loadEnvV2Loop te env σ pfx fs2 vs2 with ⟨σ2, out2, r2⟩
    have hs2 : σ2 = σ := by
      have hst := loadEnvV2Loop_state te env σ pfx fs2 vs2
      rw [h2] at hst; exact hst
    subst hs2
    simp [loadEnvV2Loop, h2]
  | cons f fs1 ih =>
    cases vs1 with
    | nil => simp at h
    | cons v vs1 =>
      simp only [List.length_cons, Nat.add_right_cancel_iff] at h
      simp only [List.cons_append]
      rw [loadEnvV2Loop]
      conv_rhs => rw [loadEnvV2Loop]
      rcases hstep : loadEnvV2Step te env σ pfx f v with ⟨σ', v'⟩ | ⟨σ', v', res⟩
      · have hs : σ' = σ := by
          have hst := loadEnvV2Step_state te env σ pfx f v
          rw [hstep] at hst; exact hst
        subst hs
        dsimp only
        rw [ih vs1 h]
        rcases h1 : loadEnvV2Loop te env σ' pfx fs1 vs1 with ⟨σ1, out1, r1⟩
        have hs1 : σ1 = σ' := by
          have hst := loadEnvV2Loop_state te env σ' pfx fs1 vs1
          rw [h1] at hst; exact hst
        subst hs1
        cases r1 with
        | ok =>
          rcases h2 : loadEnvV2Loop te env σ1 pfx fs2 vs2 with ⟨σ2, out2, r2⟩
          simp
        | err m => simp
        | panicked m => simp
      · have hs : σ' = σ := by
          have hst := loadEnvV2Step_state te env σ pfx f v
          rw [hstep] at hst; exact hst
        subst hs
        dsimp only
        have hne := loadEnvV2Step_inr_ne_ok te env σ' σ' pfx f v v' res hstep
        cases res with
        | ok => exact absurd rfl hne
        | err m => simp
        | panicked m => simp

theorem loadFlagsLoop_length (te : TextEnv) (σ : Taurus) (pfx : String) (fs : List GoField) (vs : List GoValue) :
    (loadFlagsLoop te σ pfx fs vs).2.1.length = vs.length := by
  induction fs generalizing σ vs with
  | nil => simp [loadFlagsLoop]
  | cons f fs ih =>
    cases vs with
    | nil => simp [loadFlagsLoop]
    | cons v vs =>
      rw [loadFlagsLoop]
      rcases h : loadFlagsStep te σ pfx f v with ⟨σ', v'⟩ | ⟨σ', v', res⟩
      · simp [ih]
      · simp

theorem loadFlagsLoop_append (te : TextEnv) (σ : Taurus) (pfx : String) (fs1 fs2 : List GoField) (vs1 vs2 : List GoValue)
    (h : vs1.length = fs1.length) :
    loadFlagsLoop te σ pfx (fs1 ++ fs2) (vs1 ++ vs2) =
      match loadFlagsLoop te σ pfx fs1 vs1 with
      | (_, out1, .ok) =>
          match loadFlagsLoop te σ pfx fs2 vs2 with
          | (_, out2, r2) => (σ, out1 ++ out2, r2)
      | (_, out1, r1) => (σ, out1 ++ vs2, r1) := by
  induction fs1 generalizing vs1 with
  | nil =>
    rw [List.length_nil] at h
    rw [List.length_eq_zero] at h
    subst h
    rcases h2 : loadFlagsLoop te σ pfx fs2 vs2 with ⟨σ2, out2, r2⟩
    have hs2 : σ2 = σ := by
      have hst := loadFlagsLoop_state te σ pfx fs2 vs2
      rw [h2] at hst; exact hst
    subst hs2
    simp [loadFlagsLoop, h2]
  | cons f fs1 ih =>
    cases vs1 with
    | nil => simp at h
    | cons v vs1 =>
      simp only [List.length_cons, Nat.add_right_cancel_iff] at h
      simp only [List.cons_append]
      rw [loadFlagsLoop]
      conv_rhs => rw [loadFlagsLoop]
      rcases hstep : loadFlagsStep te σ pfx f v with ⟨σ', v'⟩ | ⟨σ', v', res⟩
      · have hs : σ' = σ := by
          have hst := loadFlagsStep_state te σ pfx f v
          rw [hstep] at hst; exact hst
        subst hs
        dsimp only
        rw [ih vs1 h]
        rcases h1 : loadFlagsLoop te σ' pfx fs1 vs1 with ⟨σ1, out1, r1⟩
        have hs1 : σ1 = σ' := by
          have hst := loadFlagsLoop_state te σ' pfx fs1 vs1
          rw [h1] at hst; exact hst
        subst hs1
        cases r1 with
        | ok =>
          rcases h2 : loadFlagsLoop te σ1 pfx fs2 vs2 with ⟨σ2, out2, r2⟩
          simp
        | err m => simp
        | panicked m => simp
      · have hs : σ' = σ := by
          have hst := loadFlagsStep_state te σ pfx f v
          rw [hstep] at hst; exact hst
        subst hs
        dsimp only
        have hne := loadFlagsStep_inr_ne_ok te σ' σ' pfx f v v' res hstep
        cases res with
        | ok => exact absurd rfl hne
        | err m => simp
        | panicked m => simp

/-! ## Step characterization lemmas -/

theorem lookupEnvAliased_hit (σ : Taurus) (env : EnvMap) (key val : String)
    (h : assocFind env key = some val) :
    lookupEnvAliased σ env key = some (key, val) := by
  unfold lookupEnvAliased
  rw [h]

theorem loadEnvV1Step_struct_unexported (te : TextEnv) (env : EnvMap) (σ : Taurus)
    (pfx : String) (f : GoField) (v : GoValue)
    (hst : f.ftyp.kind.isStructKind = true) (hexp : f.exported = false) :
    loadEnvV1Step te env σ pfx f v = .inr (σ, v, .panicked roInterfacePanic) := by
  cases f with
  | mk fname ftag fexported ftyp =>
    unfold loadEnvV1Step
    simp_all [GoField.ftyp, GoField.exported]

theorem loadEnvV1Step_struct (te : TextEnv) (env : EnvMap) (σ : Taurus)
    (pfx : String) (f : GoField) (v : GoValue)
    (hst : f.ftyp.kind.isStructKind = true) (hexp : f.exported = true) :
    loadEnvV1Step te env σ pfx f v =
      match loadEnvV1 te env σ (envKeyV1 pfx f) f.ftyp v with
      | (σ', v', .ok) => .inl (σ', v')
      | (σ', v', r) => .inr (σ', v', r) := by
  cases f with
  | mk fname ftag fexported ftyp =>
    unfold loadEnvV1Step
    simp_all [GoField.ftyp, GoField.exported]

theorem loadEnvV1Step_skip_unexported (te : TextEnv) (env : EnvMap) (σ : Taurus)
    (pfx : String) (f : GoField) (v : GoValue)
    (hns : f.ftyp.kind.isStructKind = false) (hexp : f.exported = false) :
    loadEnvV1Step te env σ pfx f v = .inl (σ, v) := by
  cases f with
  | mk fname ftag fexported ftyp =>
    unfold loadEnvV1Step
    simp_all [GoField.ftyp, GoField.exported]

theorem loadEnvV1Step_miss (te : TextEnv) (env : EnvMap) (σ : Taurus)
    (pfx : String) (f : GoField) (v : GoValue)
    (hns : f.ftyp.kind.isStructKind = false) (hexp : f.exported = true)
    (hkup : lookupEnvAliased σ env (envKeyV1 pfx f) = none) :
    loadEnvV1Step te env σ pfx f v = .inl (σ, v) := by
  cases f with
  | mk fname ftag fexported ftyp =>
    unfold loadEnvV1Step
    simp_all [GoField.ftyp, GoField.exported]

theorem loadEnvV1Step_hit (te : TextEnv) (env : EnvMap) (σ : Taurus)
    (pfx : String) (f : GoField) (v : GoValue) (hitKey raw : String)
    (hns : f.ftyp.kind.isStructKind = false) (hexp : f.exported = true)
    (hkup : lookupEnvAliased σ env (envKeyV1 pfx f) = some (hitKey, raw)) :
    loadEnvV1Step te env σ pfx f v =
      match setField σ te f v raw with
      | .error e =>
          .inr (σ, v, .err ("error setting field for " ++ hitKey ++ ": " ++ e))
      | .ok v' => .inl (σ, v') := by
  cases f with
  | mk fname ftag fexported ftyp =>
    unfold loadEnvV1Step
    simp_all [GoField.ftyp, GoField.exported]

theorem loadFlagsStep_struct_unexported (te : TextEnv) (σ : Taurus)
    (pfx : String) (f : GoField) (v : GoValue)
    (hst : f.ftyp.kind.isStructKind = true) (hexp : f.exported = false) :
    loadFlagsStep te σ pfx f v = .inr (σ, v, .panicked roInterfacePanic) := by
  cases f with
  | mk fname ftag fexported ftyp =>
    unfold loadFlagsStep
    simp_all [GoField.ftyp, GoField.exported]

theorem loadFlagsStep_struct (te : TextEnv) (σ : Taurus)
    (pfx : String) (f : GoField) (v : GoValue)
    (hst : f.ftyp.kind.isStructKind = true) (hexp : f.exported = true) :
    loadFlagsStep te σ pfx f v =
      match loadFlagsGo te σ (fieldPathGo pfx f) f.ftyp v with
      | (σ', v', .ok) => .inl (σ', v')
      | (σ', v', r) => .inr (σ', v', r) := by
  cases f with
  | mk fname ftag fexported ftyp =>
    unfold loadFlagsStep
    simp_all [GoField.ftyp, GoField.exported]

theorem loadFlagsStep_skip_unexported (te : TextEnv) (σ : Taurus)
    (pfx : String) (f : GoField) (v : GoValue)
    (hns : f.ftyp.kind.isStructKind = false) (hexp : f.exported = false) :
    loadFlagsStep te σ pfx f v = .inl (σ, v) := by
  cases f with
  | mk fname ftag fexported ftyp =>
    unfold loadFlagsStep
    simp_all [GoField.ftyp, GoField.exported]

theorem loadFlagsStep_miss (te : TextEnv) (σ : Taurus)
    (pfx : String) (f : GoField) (v : GoValue)
    (hns : f.ftyp.kind.isStructKind = false) (hexp : f.exported = true)
    (hkup : assocFind σ.flags (fieldPathGo pfx f) = none) :
    loadFlagsStep te σ pfx f v = .inl (σ, v) := by
  cases f with
  | mk fname ftag fexported ftyp =>
    unfold loadFlagsStep
    simp_all [GoField.ftyp, GoField.exported]

theorem loadFlagsStep_unchanged (te : TextEnv) (σ : Taurus)
    (pfx : String) (f : GoField) (v : GoValue) (fl : PFlag)
    (hns : f.ftyp.kind.isStructKind = false) (hexp : f.exported = true)
    (hkup : assocFind σ.flags (fieldPathGo pfx f) = some fl)
    (hch : fl.changed = false) :
    loadFlagsStep te σ pfx f v = .inl (σ, v) := by
  cases f with
  | mk fname ftag fexported ftyp =>
    unfold loadFlagsStep
    simp_all [GoField.ftyp, GoField.exported]

theorem loadFlagsStep_changed (te : TextEnv) (σ : Taurus)
    (pfx : String) (f : GoField) (v : GoValue) (fl : PFlag)
    (hns : f.ftyp.kind.isStructKind = false) (hexp : f.exported = true)
    (hkup : assocFind σ.flags (fieldPathGo pfx f) = some fl)
    (hch : fl.changed = true) :
    loadFlagsStep te σ pfx f v =
      match setField σ te f v fl.value with
      | .error e =>
          .inr (σ, v,
            .err ("error setting field for " ++ fieldPathGo pfx f ++ ": " ++ e))
      | .ok v' => .inl (σ, v') := by
  cases f with
  | mk fname ftag fexported ftyp =>
    unfold loadFlagsStep
    simp_all [GoField.ftyp, GoField.exported]

/-! ## Shared concrete fixtures -/

/-- A Go program with no `encoding.TextUnmarshaler` implementations. -/
def teNone : TextEnv := fun _ => none

def intTy : GoType := .mk "int" (.kint .w64)

def stringTy : GoType := .mk "string" .kstring

def serverTy : GoType :=
  .mk "Server" (.kstruct [.mk "Port" "" true intTy, .mk "Host" "" true stringTy])

def configTy : GoType := .mk "Config" (.kstruct [.mk "Server" "" true serverTy])

/-- The zero record of `configTy`. -/
def cfgZero : GoValue := .vstruct [.vstruct [.vint 0, .vstring ""]]

/-! ## C2: conversion strategy resolution order -/

/-- C2: for every field type and raw value, `setField` tries a registered
custom unmarshaler for the exact static type first (and then the native
text-decoding capability is not consulted: the result is independent of
`te`), then the type's `encoding.TextUnmarshaler` implementation, then
the built-in kind switch `setFieldKind`, whose default arm fails with an
"unsupported field type" error naming the field's kind. -/
theorem C2_setField_resolution_order (σ : Taurus) (te te' : TextEnv) (f : GoField)
    (old : GoValue) (s : String) :
    (∀ u, assocFind σ.customUnmarshalers f.ftyp.name = some u →
        setField σ te f old s =
          (match u old s with
           | .error e => .error ("failed to unmarshal custom field: " ++ e)
           | .ok v => .ok v)
        ∧ setField σ te f old s = setField σ te' f old s)
    ∧ (assocFind σ.customUnmarshalers f.ftyp.name = none →
        ∀ u, te f.ftyp.name = some u →
          setField σ te f old s =
            (match u old s with
             | .error e => .error ("failed to unmarshal field: " ++ e)
             | .ok v => .ok v))
    ∧ (assocFind σ.customUnmarshalers f.ftyp.name = none →
        te f.ftyp.name = none →
          setField σ te f old s = setFieldKind f s)
    ∧ (∀ kn, f.ftyp.kind = .kother kn →
        setFieldKind f s = .error ("unsupported field type: " ++ kn)) := by
  refine ⟨?_, ?_, ?_, ?_⟩
  · intro u hu
    constructor
    · unfold setField
      rw [hu]
    · unfold setField
      rw [hu]
  · intro hcu u hte
    unfold setField
    rw [hcu, hte]
  · intro hcu hte
    unfold setField
    rw [hcu, hte]
  · intro kn hk
    unfold setFieldKind
    rw [hk]

/-- A scalar type with both a registered custom unmarshaler and a native
text-decoding implementation (for the C2 witness). -/
def durTy : GoType := .mk "Dur" (.kint .w64)

def fDur : GoField := .mk "D" "" true durTy

def σDur : Taurus := (Taurus.new).registerUnmarshaler "Dur" (fun _ _ => .ok (.vint 42))

def teDur : TextEnv :=
  fun n => if n = "Dur" then some (fun _ _ => .ok (.vint 99)) else none

/-- C2 witness: with both a custom unmarshaler (yielding 42) and a native
text decoder (yielding 99) registered for `Dur`, the custom unmarshaler
wins and the native decoder is never consulted. -/
theorem C2_setField_resolution_order_witness :
    setField σDur teDur fDur (.vint 0) "x" = .ok (.vint 42)
    ∧ setField σDur teDur fDur (.vint 0) "x" = setField σDur teNone fDur (.vint 0) "x" := by
  have h := (C2_setField_resolution_order σDur teDur teNone fDur (.vint 0) "x").1
    (fun _ _ => .ok (.vint 42)) rfl
  exact ⟨h.1, h.2⟩

/-! ## C5: signed-integer conversion -/

/-- Narrowing is the identity on values in the target width's range. -/
theorem truncInt_eq_of_range (w : IntW) (n : Int)
    (h1 : -(2 ^ (w.bits - 1) : Int) ≤ n) (h2 : n < 2 ^ (w.bits - 1)) :
    truncInt w n = n := by
  unfold truncInt
  rw [Int.emod_eq_of_lt (by cases w <;> simp [IntW.bits] at h1 h2 ⊢ <;> omega)
    (by cases w <;> simp [IntW.bits] at h1 h2 ⊢ <;> omega)]
  omega

/-- C5 counterexample: an `int8` field fed the text "300" (out of range
for `int8` but within `int64`) is converted without error to the
silently truncated value 44, not rejected. -/
theorem C5_counterexample :
    setField Taurus.new teNone (.mk "X" "" true (.mk "int8" (.kint .w8))) (.vint 0) "300"
      = .ok (.vint 44)
    ∧ (setField Taurus.new teNone (.mk "X" "" true (.mk "int8" (.kint .w8)))
        (.vint 0) "300").isOk = true := by
  exact ⟨rfl, rfl⟩

/-- C5 (amended): for a signed-integer field of width `w` with no custom
or native text conversion, `setField` parses the text as an `int64` and
narrows by two's-complement wrap-around; when the parsed value is within
the field's width the result equals the direct native parse, and text
that fails the 64-bit parse (bad syntax or out of `int64` range) yields
an error naming the int kind. -/
theorem C5_signed_narrowing (σ : Taurus) (te : TextEnv) (f : GoField) (w : IntW)
    (old : GoValue) (s : String)
    (hcu : assocFind σ.customUnmarshalers f.ftyp.name = none)
    (hte : te f.ftyp.name = none)
    (hk : f.ftyp.kind = .kint w) :
    (∀ n, parseInt64 s = .ok n →
        setField σ te f old s = .ok (.vint (truncInt w n)))
    ∧ (∀ n, parseInt64 s = .ok n → -(2 ^ (w.bits - 1) : Int) ≤ n →
        n < 2 ^ (w.bits - 1) → setField σ te f old s = .ok (.vint n))
    ∧ (∀ e, parseInt64 s = .error e →
        setField σ te f old s = .error ("invalid int: " ++ e)) := by
  have hbase : setField σ te f old s = setFieldKind f s := by
    unfold setField
    rw [hcu, hte]
  have hok : ∀ n, parseInt64 s = .ok n →
      setField σ te f old s = .ok (.vint (truncInt w n)) := by
    intro n hn
    rw [hbase]
    unfold setFieldKind
    rw [hk, hn]
  refine ⟨hok, ?_, ?_⟩
  · intro n hn h1 h2
    rw [hok n hn, truncInt_eq_of_range w n h1 h2]
  · intro e he
    rw [hbase]
    unfold setFieldKind
    rw [hk, he]

/-- C5 witness: instantiating the amended theorem at an `int8` field:
"300" wraps to 44; "42" is in range and parses exactly; the out-of-int64
text "9223372036854775808" is rejected with the int error. -/
theorem C5_signed_narrowing_witness :
    setField Taurus.new teNone (.mk "X" "" true (.mk "int8" (.kint .w8))) (.vint 0) "300"
      = .ok (.vint (truncInt .w8 300))
    ∧ setField Taurus.new teNone (.mk "X" "" true (.mk "int8" (.kint .w8))) (.vint 0) "42"
      = .ok (.vint 42)
    ∧ setField Taurus.new teNone (.mk "X" "" true (.mk "int8" (.kint .w8))) (.vint 0)
        "9223372036854775808"
      = .error ("invalid int: " ++ rngErr "ParseInt" "9223372036854775808") := by
  refine ⟨?_, ?_, ?_⟩
  · exact (C5_signed_narrowing Taurus.new teNone (.mk "X" "" true (.mk "int8" (.kint .w8)))
      .w8 (.vint 0) "300" rfl rfl rfl).1 300 rfl
  · exact (C5_signed_narrowing Taurus.new teNone (.mk "X" "" true (.mk "int8" (.kint .w8)))
      .w8 (.vint 0) "42" rfl rfl rfl).2.1 42 rfl (by decide) (by decide)
  · exact (C5_signed_narrowing Taurus.new teNone (.mk "X" "" true (.mk "int8" (.kint .w8)))
      .w8 (.vint 0) "9223372036854775808" rfl rfl rfl).2.2 _ rfl

/-! ## C10: empty-string environment values count as present -/

/-- C10: when a leaf's environment key is set to the empty string,
`os.LookupEnv` reports it present, so the binder converts it: a plain
string field is overwritten with `""` and the loop continues, while a
plain numeric or boolean field fails conversion of `""`, aborting the
walk with an error naming the key and leaving the field and all later
fields untouched. -/
theorem C10_empty_env_value (te : TextEnv) (env : EnvMap) (σ : Taurus)
    (pfx : String) (f : GoField) (v : GoValue) (fs : List GoField)
    (vs : List GoValue)
    (hexp : f.exported = true)
    (hcu : assocFind σ.customUnmarshalers f.ftyp.name = none)
    (hte : te f.ftyp.name = none)
    (henv : assocFind env (envKeyV1 pfx f) = some "") :
    (f.ftyp.kind = .kstring →
        loadEnvV1Loop te env σ pfx (f :: fs) (v :: vs) =
          ((loadEnvV1Loop te env σ pfx fs vs).1,
           .vstring "" :: (loadEnvV1Loop te env σ pfx fs vs).2.1,
           (loadEnvV1Loop te env σ pfx fs vs).2.2))
    ∧ (∀ w, f.ftyp.kind = .kint w →
        loadEnvV1Loop te env σ pfx (f :: fs) (v :: vs) =
          (σ, v :: vs, .err ("error setting field for " ++ envKeyV1 pfx f
            ++ ": " ++ ("invalid int: " ++ synErr "ParseInt" ""))))
    ∧ (∀ w, f.ftyp.kind = .kuint w →
        loadEnvV1Loop te env σ pfx (f :: fs) (v :: vs) =
          (σ, v :: vs, .err ("error setting field for " ++ envKeyV1 pfx f
            ++ ": " ++ ("invalid uint: " ++ synErr "ParseUint" ""))))
    ∧ (f.ftyp.kind = .kbool →
        loadEnvV1Loop te env σ pfx (f :: fs) (v :: vs) =
          (σ, v :: vs, .err ("error setting field for " ++ envKeyV1 pfx f
            ++ ": " ++ ("invalid bool: " ++ synErr "ParseBool" ""))))
    ∧ (f.ftyp.kind = .kfloat32 ∨ f.ftyp.kind = .kfloat64 →
        loadEnvV1Loop te env σ pfx (f :: fs) (v :: vs) =
          (σ, v :: vs, .err ("error setting field for " ++ envKeyV1 pfx f
            ++ ": " ++ ("invalid float: " ++ synErr "ParseFloat" "")))) := by
  have hbase : setField σ te f v "" = setFieldKind f "" := by
    unfold setField
    rw [hcu, hte]
  have hkup := lookupEnvAliased_hit σ env (envKeyV1 pfx f) "" henv
  refine ⟨?_, ?_, ?_, ?_, ?_⟩
  · intro hk
    rw [loadEnvV1Loop, loadEnvV1Step_hit te env σ pfx f v (envKeyV1 pfx f) ""
      (by rw [hk]; rfl) hexp hkup, hbase]
    unfold setFieldKind
    rw [hk]
  · intro w hk
    rw [loadEnvV1Loop, loadEnvV1Step_hit te env σ pfx f v (envKeyV1 pfx f) ""
      (by rw [hk]; rfl) hexp hkup, hbase]
    unfold setFieldKind
    rw [hk]
    rfl
  · intro w hk
    rw [loadEnvV1Loop, loadEnvV1Step_hit te env σ pfx f v (envKeyV1 pfx f) ""
      (by rw [hk]; rfl) hexp hkup, hbase]
    unfold setFieldKind
    rw [hk]
    rfl
  · intro hk
    rw [loadEnvV1Loop, loadEnvV1Step_hit te env σ pfx f v (envKeyV1 pfx f) ""
      (by rw [hk]; rfl) hexp hkup, hbase]
    unfold setFieldKind
    rw [hk]
    rfl
  · intro hk
    rcases hk with hk | hk <;>
      rw [loadEnvV1Loop, loadEnvV1Step_hit te env σ pfx f v (envKeyV1 pfx f) ""
        (by rw [hk]; rfl) hexp hkup, hbase] <;>
      unfold setFieldKind <;> rw [hk] <;> rfl

/-- C10 witness: a record `{S string; P int}` with `S` and `P` both set
to the empty string in the environment: the string field is overwritten
with `""`; with only `P` set to `""`, the int field aborts the call with
the conversion error (and the string field before it, having no env
entry, stays untouched). -/
theorem C10_empty_env_value_witness :
    loadEnvV1Loop teNone [("S", "")] Taurus.new ""
      [.mk "S" "" true stringTy] [.vstring "old"]
      = (Taurus.new, [.vstring ""], .ok)
    ∧ loadEnvV1Loop teNone [("P", "")] Taurus.new ""
        [.mk "P" "" true intTy] [.vint 7]
      = (Taurus.new, [.vint 7],
         .err ("error setting field for P: invalid int: " ++ synErr "ParseInt" "")) := by
  constructor
  · exact ((C10_empty_env_value teNone [("S", "")] Taurus.new ""
      (.mk "S" "" true stringTy) (.vstring "old") [] [] rfl rfl rfl rfl).1 rfl).trans rfl
  · exact ((C10_empty_env_value teNone [("P", "")] Taurus.new ""
      (.mk "P" "" true intTy) (.vint 7) [] [] rfl rfl rfl rfl).2.1 .w64 rfl).trans rfl

/-! ## C3: only explicitly-set flags are applied -/

/-- C3: a leaf whose flag path has no registry entry, or whose registered
handle has `Changed = false`, is left exactly as it was (even when the
handle carries a default value string); a leaf whose registered flag is
changed and whose rendered value converts successfully is assigned the
converted value.  Stated for the leaf at an arbitrary position of its
field list: the fields before it run first (aborting the walk if they
fail), the leaf's slot keeps `v` (resp. receives `w`), and the fields
after it are processed only when everything before succeeded. -/
theorem C3_flag_changed_bit (te : TextEnv) (σ : Taurus) (pfx : String)
    (f : GoField) (v : GoValue) (fs1 fs2 : List GoField)
    (vs1 vs2 : List GoValue) (hlen : vs1.length = fs1.length)
    (hns : f.ftyp.kind.isStructKind = false) (hexp : f.exported = true) :
    ((assocFind σ.flags (fieldPathGo pfx f) = none
        ∨ (∃ fl, assocFind σ.flags (fieldPathGo pfx f) = some fl
            ∧ fl.changed = false)) →
      loadFlagsLoop te σ pfx (fs1 ++ f :: fs2) (vs1 ++ v :: vs2) =
        match loadFlagsLoop te σ pfx fs1 vs1 with
        | (_, out1, .ok) =>
            match loadFlagsLoop te σ pfx fs2 vs2 with
            | (_, out2, r2) => (σ, out1 ++ v :: out2, r2)
        | (_, out1, r1) => (σ, out1 ++ v :: vs2, r1))
    ∧ (∀ fl w, assocFind σ.flags (fieldPathGo pfx f) = some fl →
        fl.changed = true → setField σ te f v fl.value = .ok w →
        loadFlagsLoop te σ pfx (fs1 ++ f :: fs2) (vs1 ++ v :: vs2) =
          match loadFlagsLoop te σ pfx fs1 vs1 with
          | (_, out1, .ok) =>
              match loadFlagsLoop te σ pfx fs2 vs2 with
              | (_, out2, r2) => (σ, out1 ++ w :: out2, r2)
          | (_, out1, r1) => (σ, out1 ++ v :: vs2, r1)) := by
  have happ := loadFlagsLoop_append te σ pfx fs1 (f :: fs2) vs1 (v :: vs2) hlen
  constructor
  · intro hmiss
    have hstep : loadFlagsStep te σ pfx f v = .inl (σ, v) := by
      rcases hmiss with hnone | ⟨fl, hfl, hch⟩
      · exact loadFlagsStep_miss te σ pfx f v hns hexp hnone
      · exact loadFlagsStep_unchanged te σ pfx f v fl hns hexp hfl hch
    rw [happ, loadFlagsLoop, hstep]
  · intro fl w hfl hch hset
    have hstep : loadFlagsStep te σ pfx f v = .inl (σ, w) := by
      rw [loadFlagsStep_changed te σ pfx f v fl hns hexp hfl hch, hset]
    rw [happ, loadFlagsLoop, hstep]

/-- Registry with `Server.Port` bound to an unset flag whose handle
carries the default value rendering "9090" (the spec's concrete
scenario). -/
def σ9090 : Taurus := (Taurus.new).bindFlag "Server.Port" ⟨false, "9090"⟩

/-- Registry with `Server.Port` bound to a flag explicitly set to
"9090". -/
def σ9090c : Taurus := (Taurus.new).bindFlag "Server.Port" ⟨true, "9090"⟩

/-- C3 witness: at the `Server` level of the `{Server{Port; Host}}`
record, the unset flag (changed=false, default "9090") leaves
`Port = 1234` untouched, while the explicitly set flag overwrites it
with 9090. -/
theorem C3_flag_changed_bit_witness :
    loadFlagsLoop teNone σ9090 "Server"
      [.mk "Port" "" true intTy, .mk "Host" "" true stringTy]
      [.vint 1234, .vstring "h"]
      = (σ9090, [.vint 1234, .vstring "h"], .ok)
    ∧ loadFlagsLoop teNone σ9090c "Server"
        [.mk "Port" "" true intTy, .mk "Host" "" true stringTy]
        [.vint 1234, .vstring "h"]
      = (σ9090c, [.vint 9090, .vstring "h"], .ok) := by
  constructor
  · exact ((C3_flag_changed_bit teNone σ9090 "Server" (.mk "Port" "" true intTy)
      (.vint 1234) [] [.mk "Host" "" true stringTy] [] [.vstring "h"] rfl rfl rfl).1
      (Or.inr ⟨⟨false, "9090"⟩, rfl, rfl⟩)).trans rfl
  · exact ((C3_flag_changed_bit teNone σ9090c "Server" (.mk "Port" "" true intTy)
      (.vint 1234) [] [.mk "Host" "" true stringTy] [] [.vstring "h"] rfl rfl rfl).2
      ⟨true, "9090"⟩ (.vint 9090) rfl rfl rfl).trans rfl

/-! ## C4: conversion failure aborts; earlier fields keep values -/

/-- C4: in the env walk, a leaf whose looked-up value fails conversion
turns the call into an error naming the hit key and the underlying
cause; the fields before the leaf have already run (their new values are
kept, with no rollback), the failing leaf and every later field keep
their previous values.  A leaf with no environment hit (primary key and
all aliases absent) produces no error and the walk continues past it.
The third conjunct states the abort at the `LoadEnv` level: when the
fields before the failing leaf complete without error, the call returns
the record with their new values, the rest untouched, and the error. -/
theorem C4_env_error_aborts (te : TextEnv) (env : EnvMap) (σ : Taurus)
    (pfx : String) (f : GoField) (v : GoValue) (fs1 fs2 : List GoField)
    (vs1 vs2 : List GoValue) (hlen : vs1.length = fs1.length)
    (hns : f.ftyp.kind.isStructKind = false) (hexp : f.exported = true) :
    (∀ hitKey raw e,
        lookupEnvAliased σ env (envKeyV1 pfx f) = some (hitKey, raw) →
        setField σ te f v raw = .error e →
        loadEnvV1Loop te env σ pfx (fs1 ++ f :: fs2) (vs1 ++ v :: vs2) =
          match loadEnvV1Loop te env σ pfx fs1 vs1 with
          | (_, out1, .ok) =>
              (σ, out1 ++ v :: vs2,
               .err ("error setting field for " ++ hitKey ++ ": " ++ e))
          | (_, out1, r1) => (σ, out1 ++ v :: vs2, r1))
    ∧ (lookupEnvAliased σ env (envKeyV1 pfx f) = none →
        loadEnvV1Loop te env σ pfx (fs1 ++ f :: fs2) (vs1 ++ v :: vs2) =
          match loadEnvV1Loop te env σ pfx fs1 vs1 with
          | (_, out1, .ok) =>
              match loadEnvV1Loop te env σ pfx fs2 vs2 with
              | (_, out2, r2) => (σ, out1 ++ v :: out2, r2)
          | (_, out1, r1) => (σ, out1 ++ v :: vs2, r1))
    ∧ (∀ nm hitKey raw e,
        lookupEnvAliased σ env (envKeyV1 pfx f) = some (hitKey, raw) →
        setField σ te f v raw = .error e →
        loadEnvV1Loop te env σ pfx fs1 vs1 = ((loadEnvV1Loop te env σ pfx fs1 vs1).1,
          (loadEnvV1Loop te env σ pfx fs1 vs1).2.1, .ok) →
        loadEnvV1 te env σ pfx (.mk nm (.kstruct (fs1 ++ f :: fs2)))
            (.vstruct (vs1 ++ v :: vs2)) =
          (σ, .vstruct ((loadEnvV1Loop te env σ pfx fs1 vs1).2.1 ++ v :: vs2),
           .err ("error setting field for " ++ hitKey ++ ": " ++ e))) := by
  have happ := loadEnvV1Loop_append te env σ pfx fs1 (f :: fs2) vs1 (v :: vs2) hlen
  have habort : ∀ hitKey raw e,
      lookupEnvAliased σ env (envKeyV1 pfx f) = some (hitKey, raw) →
      setField σ te f v raw = .error e →
      loadEnvV1Loop te env σ pfx (fs1 ++ f :: fs2) (vs1 ++ v :: vs2) =
        match loadEnvV1Loop te env σ pfx fs1 vs1 with
        | (_, out1, .ok) =>
            (σ, out1 ++ v :: vs2,
             .err ("error setting field for " ++ hitKey ++ ": " ++ e))
        | (_, out1, r1) => (σ, out1 ++ v :: vs2, r1) := by
    intro hitKey raw e hkup hset
    have hstep : loadEnvV1Step te env σ pfx f v =
        .inr (σ, v, .err ("error setting field for " ++ hitKey ++ ": " ++ e)) := by
      rw [loadEnvV1Step_hit te env σ pfx f v hitKey raw hns hexp hkup, hset]
    rw [happ, loadEnvV1Loop, hstep]
  refine ⟨habort, ?_, ?_⟩
  · intro hkup
    have hstep : loadEnvV1Step te env σ pfx f v = .inl (σ, v) :=
      loadEnvV1Step_miss te env σ pfx f v hns hexp hkup
    rw [happ, loadEnvV1Loop, hstep]
  · intro nm hitKey raw e hkup hset hok
    rw [loadEnvV1]
    rw [habort hitKey raw e hkup hset, hok]

/-- C4 witness: record `{A int; B int; C int}` with `A=1`, `B=oops`
(conversion failure) and `C=3` in the environment: `A` keeps its freshly
assigned 1, the call errors naming `B` and the parse failure, and `C` is
never assigned; dropping `B` from the environment, the walk continues
through all three fields; and at the `LoadEnv` level the whole call
returns the partially updated record with the error. -/
theorem C4_env_error_aborts_witness :
    loadEnvV1Loop teNone [("A", "1"), ("B", "oops"), ("C", "3")] Taurus.new ""
      [.mk "A" "" true intTy, .mk "B" "" true intTy, .mk "C" "" true intTy]
      [.vint 0, .vint 0, .vint 0]
      = (Taurus.new, [.vint 1, .vint 0, .vint 0],
         .err ("error setting field for B: invalid int: " ++ synErr "ParseInt" "oops"))
    ∧ loadEnvV1Loop teNone [("A", "1"), ("C", "3")] Taurus.new ""
        [.mk "A" "" true intTy, .mk "B" "" true intTy, .mk "C" "" true intTy]
        [.vint 0, .vint 0, .vint 0]
      = (Taurus.new, [.vint 1, .vint 0, .vint 3], .ok)
    ∧ loadEnvV1 teNone [("A", "1"), ("B", "oops"), ("C", "3")] Taurus.new ""
        (.mk "Rec" (.kstruct
          [.mk "A" "" true intTy, .mk "B" "" true intTy, .mk "C" "" true intTy]))
        (.vstruct [.vint 0, .vint 0, .vint 0])
      = (Taurus.new, .vstruct [.vint 1, .vint 0, .vint 0],
         .err ("error setting field for B: invalid int: " ++ synErr "ParseInt" "oops")) := by
  refine ⟨?_, ?_, ?_⟩
  · exact ((C4_env_error_aborts teNone [("A", "1"), ("B", "oops"), ("C", "3")]
      Taurus.new "" (.mk "B" "" true intTy) (.vint 0)
      [.mk "A" "" true intTy] [.mk "C" "" true intTy]
      [.vint 0] [.vint 0] rfl rfl rfl).1 "B" "oops"
      ("invalid int: " ++ synErr "ParseInt" "oops") rfl rfl).trans rfl
  · exact ((C4_env_error_aborts teNone [("A", "1"), ("C", "3")]
      Taurus.new "" (.mk "B" "" true intTy) (.vint 0)
      [.mk "A" "" true intTy] [.mk "C" "" true intTy]
      [.vint 0] [.vint 0] rfl rfl rfl).2.1 rfl).trans rfl
  · exact ((C4_env_error_aborts teNone [("A", "1"), ("B", "oops"), ("C", "3")]
      Taurus.new "" (.mk "B" "" true intTy) (.vint 0)
      [.mk "A" "" true intTy] [.mk "C" "" true intTy]
      [.vint 0] [.vint 0] rfl rfl rfl).2.2 "Rec" "B" "oops"
      ("invalid int: " ++ synErr "ParseInt" "oops") rfl rfl rfl).trans rfl

/-! ## C6: unexported fields -/

/-- Record type with an unexported struct-typed field followed by an
exported int field (for the C6 counterexample). -/
def hiddenTy : GoType :=
  .mk "CfgU" (.kstruct [
    .mk "hidden" "" false (.mk "inner" (.kstruct [.mk "A" "" true intTy])),
    .mk "Port" "" true intTy])

def hiddenZero : GoValue := .vstruct [.vstruct [.vint 0], .vint 0]

/-- C6 counterexample: an unexported *struct-typed* field is not skipped:
the walkers recurse into it before the `CanSet` check, and
`fieldValue.Addr().Interface()` panics on the read-only value — in both
`LoadEnv` and `LoadFlags`.  The later exported field is never reached. -/
theorem C6_counterexample :
    loadEnvV1 teNone [("PORT", "5")] Taurus.new "" hiddenTy hiddenZero
      = (Taurus.new, hiddenZero, .panicked roInterfacePanic)
    ∧ loadFlagsV1 teNone σ9090c hiddenTy hiddenZero
      = (σ9090c, hiddenZero, .panicked roInterfacePanic) := ⟨rfl, rfl⟩

/-- C6 (amended): a non-settable (unexported) field of *non-struct* kind
is skipped silently by both binders: its slot keeps its value, no error
or panic arises from it, and the walk continues with the remaining
fields.  (An unexported struct-typed field, by contrast, is recursed
into and panics — see the counterexample.) -/
theorem C6_unexported_skipped (te : TextEnv) (env : EnvMap) (σ : Taurus)
    (pfx : String) (f : GoField) (v : GoValue) (fs1 fs2 : List GoField)
    (vs1 vs2 : List GoValue) (hlen : vs1.length = fs1.length)
    (hns : f.ftyp.kind.isStructKind = false) (hexp : f.exported = false) :
    loadEnvV1Loop te env σ pfx (fs1 ++ f :: fs2) (vs1 ++ v :: vs2) =
      (match loadEnvV1Loop te env σ pfx fs1 vs1 with
       | (_, out1, .ok) =>
           match loadEnvV1Loop te env σ pfx fs2 vs2 with
           | (_, out2, r2) => (σ, out1 ++ v :: out2, r2)
       | (_, out1, r1) => (σ, out1 ++ v :: vs2, r1))
    ∧ loadFlagsLoop te σ pfx (fs1 ++ f :: fs2) (vs1 ++ v :: vs2) =
      (match loadFlagsLoop te σ pfx fs1 vs1 with
       | (_, out1, .ok) =>
           match loadFlagsLoop te σ pfx fs2 vs2 with
           | (_, out2, r2) => (σ, out1 ++ v :: out2, r2)
       | (_, out1, r1) => (σ, out1 ++ v :: vs2, r1)) := by
  constructor
  · have happ := loadEnvV1Loop_append te env σ pfx fs1 (f :: fs2) vs1 (v :: vs2) hlen
    have hstep : loadEnvV1Step te env σ pfx f v = .inl (σ, v) :=
      loadEnvV1Step_skip_unexported te env σ pfx f v hns hexp
    rw [happ, loadEnvV1Loop, hstep]
  · have happ := loadFlagsLoop_append te σ pfx fs1 (f :: fs2) vs1 (v :: vs2) hlen
    have hstep : loadFlagsStep te σ pfx f v = .inl (σ, v) :=
      loadFlagsStep_skip_unexported te σ pfx f v hns hexp
    rw [happ, loadFlagsLoop, hstep]

/-- C6 witness: record `{A int; hidden int (unexported); C int}` with all
three keys set in the environment and flags bound for all three paths:
the unexported int field keeps its value 7 while its exported neighbours
are assigned, under both binders. -/
theorem C6_unexported_skipped_witness :
    loadEnvV1Loop teNone [("A", "1"), ("HIDDEN", "2"), ("C", "3")] Taurus.new ""
      [.mk "A" "" true intTy, .mk "hidden" "" false intTy, .mk "C" "" true intTy]
      [.vint 0, .vint 7, .vint 0]
      = (Taurus.new, [.vint 1, .vint 7, .vint 3], .ok)
    ∧ loadFlagsLoop teNone
        (((Taurus.new).bindFlag "hidden" ⟨true, "2"⟩).bindFlag "C" ⟨true, "3"⟩) ""
        [.mk "A" "" true intTy, .mk "hidden" "" false intTy, .mk "C" "" true intTy]
        [.vint 0, .vint 7, .vint 0]
      = (((Taurus.new).bindFlag "hidden" ⟨true, "2"⟩).bindFlag "C" ⟨true, "3"⟩,
         [.vint 0, .vint 7, .vint 3], .ok) := by
  constructor
  · exact ((C6_unexported_skipped teNone [("A", "1"), ("HIDDEN", "2"), ("C", "3")]
      Taurus.new "" (.mk "hidden" "" false intTy) (.vint 7)
      [.mk "A" "" true intTy] [.mk "C" "" true intTy]
      [.vint 0] [.vint 0] rfl rfl rfl).1).trans rfl
  · exact ((C6_unexported_skipped teNone [("A", "1"), ("HIDDEN", "2"), ("C", "3")]
      (((Taurus.new).bindFlag "hidden" ⟨true, "2"⟩).bindFlag "C" ⟨true, "3"⟩) ""
      (.mk "hidden" "" false intTy) (.vint 7)
      [.mk "A" "" true intTy] [.mk "C" "" true intTy]
      [.vint 0] [.vint 0] rfl rfl rfl).2).trans rfl

/-! ## C7: struct-typed fields are always recursed into -/

/-- A struct type that also implements `encoding.TextUnmarshaler`
(decoding anything to `{99}`), for the C7 counterexample. -/
def teAddr : TextEnv :=
  fun n => if n = "Addr" then some (fun _ _ => .ok (.vstruct [.vint 99])) else none

def addrTy : GoType := .mk "Addr" (.kstruct [.mk "Port" "" true intTy])

def cfgAddrTy : GoType := .mk "Cfg7" (.kstruct [.mk "Addr" "" true addrTy])

/-- C7 counterexample: with `APP_ADDR=x` set (the key a leaf treatment
would decode from, yielding `{99}`) and `APP_ADDR_PORT=7` set, the env
binder recurses into the struct-typed `Addr` field and assigns
`Port = 7`; the text-decoding capability is never invoked, so the result
differs from the leaf-decode the claim predicts. -/
theorem C7_counterexample :
    loadEnvV1 teAddr [("APP_ADDR", "x"), ("APP_ADDR_PORT", "7")] Taurus.new "APP"
      cfgAddrTy (.vstruct [.vstruct [.vint 0]])
      = (Taurus.new, .vstruct [.vstruct [.vint 7]], .ok)
    ∧ (GoValue.vstruct [.vstruct [.vint 7]]) ≠ .vstruct [.vstruct [.vint 99]] := by
  refine ⟨rfl, ?_⟩
  simp

/-- C7 (amended): every exported struct-typed field is recursed into
with the extended key/path instead of being treated as a leaf, by both
binders, whatever text-decoding capability (`te`) or registered custom
converter the field's type has — the step is literally the nested
recursive call. -/
theorem C7_struct_always_recursed (te : TextEnv) (env : EnvMap) (σ : Taurus)
    (pfx : String) (f : GoField) (v : GoValue) (fs : List GoField)
    (vs : List GoValue)
    (hst : f.ftyp.kind.isStructKind = true) (hexp : f.exported = true) :
    loadEnvV1Loop te env σ pfx (f :: fs) (v :: vs) =
      (match loadEnvV1 te env σ (envKeyV1 pfx f) f.ftyp v with
       | (σ', v', .ok) =>
           ((loadEnvV1Loop te env σ' pfx fs vs).1,
            v' :: (loadEnvV1Loop te env σ' pfx fs vs).2.1,
            (loadEnvV1Loop te env σ' pfx fs vs).2.2)
       | (σ', v', r) => (σ', v' :: vs, r))
    ∧ loadFlagsLoop te σ pfx (f :: fs) (v :: vs) =
      (match loadFlagsGo te σ (fieldPathGo pfx f) f.ftyp v with
       | (σ', v', .ok) =>
           ((loadFlagsLoop te σ' pfx fs vs).1,
            v' :: (loadFlagsLoop te σ' pfx fs vs).2.1,
            (loadFlagsLoop te σ' pfx fs vs).2.2)
       | (σ', v', r) => (σ', v' :: vs, r)) := by
  constructor
  · rw [loadEnvV1Loop, loadEnvV1Step_struct te env σ pfx f v hst hexp]
    rcases h : loadEnvV1 te env σ (envKeyV1 pfx f) f.ftyp v with ⟨σ', v', r⟩
    cases r <;> rfl
  · rw [loadFlagsLoop, loadFlagsStep_struct te σ pfx f v hst hexp]
    rcases h : loadFlagsGo te σ (fieldPathGo pfx f) f.ftyp v with ⟨σ', v', r⟩
    cases r <;> rfl

/-- C7 witness: the amended recursion equation instantiated on the
`Cfg7` record whose `Addr` struct field carries a text-decoding
capability: the step is the recursive call, which assigns the nested
`Port` from `APP_ADDR_PORT`. -/
theorem C7_struct_always_recursed_witness :
    loadEnvV1Loop teAddr [("APP_ADDR", "x"), ("APP_ADDR_PORT", "7")] Taurus.new "APP"
      [.mk "Addr" "" true addrTy] [.vstruct [.vint 0]]
      = (Taurus.new, [.vstruct [.vint 7]], .ok) := by
  exact ((C7_struct_always_recursed teAddr [("APP_ADDR", "x"), ("APP_ADDR_PORT", "7")]
    Taurus.new "APP" (.mk "Addr" "" true addrTy) (.vstruct [.vint 0]) [] []
    rfl rfl).1).trans rfl

/-! ## C1: the concrete {Server{Port; Host}} scenario -/

/-- Environment of the scenario: `APP_SERVER_PORT=8080`,
`APP_SERVER_HOST` unset, `APP_SERVICE_HOST=example.com`. -/
def envC1 : EnvMap := [("APP_SERVER_PORT", "8080"), ("APP_SERVICE_HOST", "example.com")]

/-- Registry with env prefix `APP` and the alias registered literally as
`BindEnvAlias("HOST", "SERVICE_HOST")` — the claim's wording. -/
def σAliasHost : Taurus :=
  ((Taurus.new).setEnvPrefix "APP").bindEnvAlias "HOST" ["SERVICE_HOST"]

/-- Registry with env prefix `APP` and the alias registered under the
prefix-stripped key of the `Host` leaf, `SERVER_HOST` — the registration
the alias lookup actually consults. -/
def σAliasServerHost : Taurus :=
  ((Taurus.new).setEnvPrefix "APP").bindEnvAlias "SERVER_HOST" ["SERVICE_HOST"]

/-- C1 counterexample: with the alias registered under `"HOST"`, the
alias lookup key for the `Host` leaf is
`TrimPrefix("APP_SERVER_HOST", "APP_") = "SERVER_HOST"`, which has no
entry, so `APP_SERVICE_HOST` is never consulted: `Host` stays `""`
rather than becoming `"example.com"` (while `Port` does become 8080). -/
theorem C1_scenario_counterexample :
    loadEnvV1 teNone envC1 σAliasHost "APP" configTy cfgZero
      = (σAliasHost, .vstruct [.vstruct [.vint 8080, .vstring ""]], .ok)
    ∧ (GoValue.vstruct [.vstruct [.vint 8080, .vstring ""]])
        ≠ .vstruct [.vstruct [.vint 8080, .vstring "example.com"]] := by
  refine ⟨rfl, ?_⟩
  simp

/-- C1 (amended): same scenario, but with the alias registered under the
prefix-stripped environment key `"SERVER_HOST"`
(`BindEnvAlias("SERVER_HOST", "SERVICE_HOST")`): after `LoadEnv("APP")`
the record holds `Port = 8080` and `Host = "example.com"`, the alias
fallback hitting `APP_SERVICE_HOST`.  The package-level variant agrees
(the prefix is nonempty). -/
theorem C1_scenario_amended :
    loadEnvV1 teNone envC1 σAliasServerHost "APP" configTy cfgZero
      = (σAliasServerHost, .vstruct [.vstruct [.vint 8080, .vstring "example.com"]], .ok)
    ∧ loadEnvV2 teNone envC1 σAliasServerHost "APP" configTy cfgZero
      = (σAliasServerHost, .vstruct [.vstruct [.vint 8080, .vstring "example.com"]], .ok) :=
  ⟨rfl, rfl⟩

/-! ## C9: no side effects beyond the record -/

/-- C9: `LoadEnv` (both variants) and the flag walk return the registry
state exactly as given — env prefix, expand-env bit, alias table, flag
registry (handles included), and custom (un)marshaler tables — whether
the call ends in `ok`, an error, or a panic; only the record value is
new. -/
theorem C9_registry_frame (te : TextEnv) (env : EnvMap) (σ : Taurus)
    (pfx : String) (typ : GoType) (val : GoValue) :
    (loadEnvV1 te env σ pfx typ val).1 = σ
    ∧ (loadEnvV2 te env σ pfx typ val).1 = σ
    ∧ (loadFlagsGo te σ pfx typ val).1 = σ :=
  ⟨loadEnvV1_state te env σ pfx typ val,
   loadEnvV2_state te env σ pfx typ val,
   loadFlagsGo_state te σ pfx typ val⟩

/-! ## C8: instance variant vs package-level variant -/

theorem envKeyV1_eq_envKeyV2 (pfx : String) (f : GoField) (h : pfx ≠ "") :
    envKeyV1 pfx f = envKeyV2 pfx f := by
  unfold envKeyV1 envKeyV2
  rw [if_neg h]

theorem envKeyV2_ne_empty (pfx : String) (f : GoField) : envKeyV2 pfx f ≠ "" := by
  unfold envKeyV2
  intro h
  have h2 := congrArg String.length h
  simp [String.length_append] at h2
  exact absurd h2.1.2 (by decide)

theorem envKeyV1_ne_empty (pfx : String) (f : GoField) (h : pfx ≠ "") :
    envKeyV1 pfx f ≠ "" := by
  rw [envKeyV1_eq_envKeyV2 pfx f h]
  exact envKeyV2_ne_empty pfx f

/-- With a nonempty prefix, the conditional key join of the instance
variant coincides with the unconditional join of the package variant at
every level (nested prefixes are key extensions and stay nonempty), so
the two env binders agree. -/
theorem loadEnvV1_eq_V2 (te : TextEnv) (env : EnvMap) (σ : Taurus) (pfx : String)
    (typ : GoType) (val : GoValue) (h : pfx ≠ "") :
    loadEnvV1 te env σ pfx typ val = loadEnvV2 te env σ pfx typ val := by
  refine loadEnvV1.induct te env
    (fun σ pfx typ val => pfx ≠ "" →
      loadEnvV1 te env σ pfx typ val = loadEnvV2 te env σ pfx typ val)
    (fun σ pfx fs vs => pfx ≠ "" →
      loadEnvV1Loop te env σ pfx fs vs = loadEnvV2Loop te env σ pfx fs vs)
    (fun σ pfx f v => pfx ≠ "" →
      loadEnvV1Step te env σ pfx f v = loadEnvV2Step te env σ pfx f v)
    ?_ ?_ ?_ ?_ ?_ ?_ ?_ ?_ ?_ ?_ ?_ ?_ ?_ σ pfx typ val h
  all_goals intros
  all_goals simp_all [loadEnvV1, loadEnvV2, loadEnvV1Loop, loadEnvV2Loop,
    loadEnvV1Step, loadEnvV2Step, envKeyV1_eq_envKeyV2, envKeyV1_ne_empty]
  all_goals intro hp
  all_goals simp_all [envKeyV1_eq_envKeyV2, envKeyV1_ne_empty, envKeyV2_ne_empty]
  all_goals split
  all_goals simp_all

def portCfgTy : GoType := .mk "Cfg" (.kstruct [.mk "Port" "" true intTy])

/-- C8 counterexample: with the empty prefix, the instance variant looks
up `PORT` (no leading underscore) while the package-level variant looks
up `_PORT`; with `PORT=5` in the environment the two calls produce
different records, refuting the unconditional equivalence. -/
theorem C8_counterexample :
    loadEnvV1 teNone [("PORT", "5")] Taurus.new "" portCfgTy (.vstruct [.vint 0])
      = (Taurus.new, .vstruct [.vint 5], .ok)
    ∧ loadEnvV2 teNone [("PORT", "5")] Taurus.new "" portCfgTy (.vstruct [.vint 0])
      = (Taurus.new, .vstruct [.vint 0], .ok)
    ∧ (GoValue.vstruct [.vint 5]) ≠ .vstruct [.vint 0] := by
  refine ⟨rfl, rfl, ?_⟩
  simp

/-- C8 (amended): over the same registry state, the instance methods and
the package-level functions agree whenever the `LoadEnv` prefix is
nonempty (with the empty prefix only the instance variant omits the
leading underscore in environment keys, and results can differ); the
flag binders agree unconditionally, the instance entry point being the
package walk started with the empty path prefix.  (The two variants'
`Load` bodies are textually identical and are one definition, `loadGo`,
in this development.) -/
theorem C8_variants_equivalent (te : TextEnv) (env : EnvMap) (σ : Taurus)
    (pfx : String) (typ : GoType) (val : GoValue) (h : pfx ≠ "") :
    loadEnvV1 te env σ pfx typ val = loadEnvV2 te env σ pfx typ val
    ∧ loadFlagsV1 te σ typ val = loadFlagsGo te σ "" typ val :=
  ⟨loadEnvV1_eq_V2 te env σ pfx typ val h, rfl⟩

/-- C8 witness: the equivalence at prefix "APP" on the
`{Server{Port; Host}}` record. -/
theorem C8_variants_equivalent_witness :
    ("APP" : String) ≠ ""
    ∧ loadEnvV1 teNone envC1 σAliasServerHost "APP" configTy cfgZero
        = loadEnvV2 teNone envC1 σAliasServerHost "APP" configTy cfgZero
    ∧ loadFlagsV1 teNone σ9090 configTy cfgZero
        = loadFlagsGo teNone σ9090 "" configTy cfgZero := by
  have h := C8_variants_equivalent teNone envC1 σAliasServerHost "APP" configTy cfgZero
    (by decide)
  exact ⟨by decide, h.1,
    (C8_variants_equivalent teNone envC1 σ9090 "APP" configTy cfgZero (by decide)).2⟩
